import Mathlib

/-!
Verification of the haunted terminal-UI core against its specification.

The development shallowly embeds the data model and operations of the
repository.  Types declared in the headers under src/include are translated
directly.  Function bodies that live in translation units not present in the
repository snapshot (terminal.cpp, mouse.cpp, control.cpp) are modelled from
the specification; each such definition carries a doc comment beginning
"Modelled from the spec:".  Function bodies present in the snapshot
(src/src/ui/coloration.cpp, src/src/ui/colored.cpp) are translated from the
source.
-/

namespace Haunted

/-- From src/include/haunted/core/mouse.h:
`enum class mouse_mode: int {none = 0, basic = 9, normal = 1000, highlight = 1001, motion = 1002, any = 1003}`. -/
inductive mouse_mode where
  | none
  | basic
  | normal
  | highlight
  | motion
  | any
deriving DecidableEq, Repr

/-- From src/include/haunted/core/mouse.h:
`enum class mouse_action: char {move, down, up, drag, scrollup, scrolldown}`. -/
inductive mouse_action where
  | move
  | down
  | up
  | drag
  | scrollup
  | scrolldown
deriving DecidableEq, Repr

/-- From src/include/haunted/core/mouse.h:
`enum class mouse_button {left, right}`.  Note: the enum has exactly two
values; there is no middle button value. -/
inductive mouse_button where
  | left
  | right
deriving DecidableEq, Repr

/-- Modelled from the spec: `modset` (declared in core/key.h, which is not in
the snapshot) is "a set over {shift, alt/meta, ctrl}; equality by set
contents".  Embedded as three booleans. -/
structure modset where
  shift : Bool
  alt : Bool
  ctrl : Bool
deriving DecidableEq, Repr

/-- Modelled from the spec: the button part of `mouse_report::decode_type`
(mouse.cpp is not in the snapshot).  The spec maps the low two bits of the
first parameter to buttons (0 = left, 2 = right); its value 1 (middle) is not
representable in `mouse_button`, so inputs other than 2 are mapped to left. -/
def decode_button (b : Nat) : mouse_button :=
  if b % 4 == 2 then mouse_button.right else mouse_button.left

/-- Modelled from the spec: the modifier part of `mouse_report::decode_type`
(mouse.cpp is not in the snapshot).  "Bits 2,3,4 = shift, alt, ctrl". -/
def decode_mods (b : Nat) : modset :=
  { shift := b.testBit 2, alt := b.testBit 3, ctrl := b.testBit 4 }

/-- Modelled from the spec: the action part of `mouse_report::decode_type`
together with the terminal's drag tracking (mouse.cpp and terminal.cpp are
not in the snapshot).  Spec 4.2: scroll bit (64) set selects scroll_up (low
bits 0) or scroll_down (low bits 1); otherwise motion bit (32) set resolves
to drag when a button is currently held and to move otherwise; otherwise
final byte M means down and m means up. -/
def decode_action (b : Nat) (fchar : Char) (dragging : Bool) : mouse_action :=
  if b.testBit 6 then
    (if b % 4 == 1 then mouse_action.scrolldown else mouse_action.scrollup)
  else if b.testBit 5 then
    (if dragging then mouse_action.drag else mouse_action.move)
  else if fchar == 'M' then mouse_action.down
  else mouse_action.up

/-- From src/include/haunted/core/mouse.h: the public fields of class
`mouse_report` (`mouse_action action; mouse_button button; modset mods;
long x, y; // zero-based`). -/
structure mouse_report where
  action : mouse_action
  button : mouse_button
  mods : modset
  x : Int
  y : Int
deriving DecidableEq, Repr

/-- Modelled from the spec: the `mouse_report(long type, char fchar, long x,
long y)` constructor (mouse.cpp is not in the snapshot).  Wire coordinates
are 1-based and are converted to the 0-based fields. -/
def parse_report (b : Nat) (fchar : Char) (wx wy : Int) (dragging : Bool) : mouse_report :=
  { action := decode_action b fchar dragging
    button := decode_button b
    mods := decode_mods b
    x := wx - 1
    y := wy - 1 }

/-- Modelled from the spec: the terminal's update of its `dragging` field
after processing a mouse report (terminal.cpp is not in the snapshot).
Spec 4.2: "M → down (record drag state), m → up (clear drag state)". -/
def next_dragging (r : mouse_report) (dragging : Bool) : Bool :=
  match r.action with
  | mouse_action.down => true
  | mouse_action.up => false
  | _ => dragging

/-- Modelled from the spec: the device-mode operations of the terminal
controller (terminal.cpp is not in the snapshot).  `cbreak_op` is the
`Terminal::cbreak` mode change, `mouse_op` is `Terminal::mouse(mouse_mode)`
(which emits escape sequences but does not touch the termios attributes),
and `reset_op` is the explicit `Terminal::reset` exit path. -/
inductive term_mode_op where
  | cbreak_op
  | mouse_op (m : mouse_mode)
  | reset_op
deriving DecidableEq, Repr

/-- Modelled from the spec: the device-attribute state of a terminal.
`device` is the current termios attributes of the device (abstract type A),
`original` is the `termios original` field of `Terminal`, holding the
attributes saved before any changes were applied (none until the first mode
change), and `mmode` is the current mouse mode. -/
structure dev_state (A : Type) where
  device : A
  original : Option A
  mmode : mouse_mode

/-- Modelled from the spec: one device-mode operation.  Spec 4.4: "on enter,
save original termios-equivalent attributes and apply new ones; on exit
(destructor / explicit reset), restore exactly the saved attributes".  The
cbreak transformation of the attributes is abstracted as `f`. -/
def mode_step {A : Type} (f : A → A) : term_mode_op → dev_state A → dev_state A
  | term_mode_op.cbreak_op, s =>
      { s with
        original := match s.original with
          | some o => some o
          | none => some s.device
        device := f s.device }
  | term_mode_op.mouse_op m, s => { s with mmode := m }
  | term_mode_op.reset_op, s => { s with device := s.original.getD s.device }

/-- Modelled from the spec: run a sequence of mode operations. -/
def run_modes {A : Type} (f : A → A) (ops : List term_mode_op) (s : dev_state A) :
    dev_state A :=
  ops.foldl (fun s op => mode_step f op s) s

/-- Modelled from the spec: the device attributes after `~Terminal` runs
("Resets terminal attributes and joins threads as necessary"): the saved
original attributes are restored when they were captured. -/
def destroy_attrs {A : Type} (s : dev_state A) : A :=
  s.original.getD s.device

/-- Modelled from the spec: the state of a freshly constructed terminal on a
device whose attributes are `a`: nothing saved yet, mouse mode none. -/
def init_dev {A : Type} (a : A) : dev_state A :=
  { device := a, original := none, mmode := mouse_mode.none }

/-- The restore invariant: either no mode change has happened and the device
still has its initial attributes, or the initial attributes are saved. -/
def dev_inv {A : Type} (a : A) (s : dev_state A) : Prop :=
  (s.original = none ∧ s.device = a) ∨ s.original = some a

/-- An escape sequence written to the output stream by the coloration
helpers: `ansi::get_fg(c)` or `ansi::get_bg(c)`.  Colors (`ansi::color`, an
enum of the external ansi library) are embedded as naturals. -/
inductive color_cmd where
  | fg (c : Nat)
  | bg (c : Nat)
deriving DecidableEq, Repr

/-- The state of `haunted::ui::coloration` (fields `last_foreground`,
`last_background` and the attached output stream, embedded as the list of
color escape sequences written so far). -/
structure coloration where
  last_foreground : Nat
  last_background : Nat
  output : List color_cmd
deriving DecidableEq, Repr

/-- From src/src/ui/coloration.cpp, `coloration::set_foreground`: if the
color equals `last_foreground`, return false without writing; otherwise
write `ansi::get_fg` of the color, record it as last, and return true. -/
def set_foreground (c : Nat) (s : coloration) : Bool × coloration :=
  if c == s.last_foreground then (false, s)
  else (true, { s with last_foreground := c, output := s.output ++ [color_cmd.fg c] })

/-- From src/src/ui/coloration.cpp, `coloration::set_background`. -/
def set_background (c : Nat) (s : coloration) : Bool × coloration :=
  if c == s.last_background then (false, s)
  else (true, { s with last_background := c, output := s.output ++ [color_cmd.bg c] })

/-- From src/src/ui/coloration.cpp, `coloration::set_both`:
`bool fg = set_foreground(foreground), bg = set_background(background);
return fg || bg;`. -/
def set_both (f b : Nat) (s : coloration) : Bool × coloration :=
  let fg := set_foreground f s
  let bg := set_background b fg.2
  (fg.1 || bg.1, bg.2)

/-- From src/include/haunted/core/defs.h via the spec: a position is a
rectangle `{left, top, width, height}` in zero-based terminal cells, with
int fields. -/
structure position where
  left : Int
  top : Int
  width : Int
  height : Int
deriving DecidableEq, Repr

/-- The parts of a `haunted::ui::control` (src/include/haunted/ui/Control.h)
and of its colored subclass that drawing depends on: whether the `term`
pointer is non-null, the terminal's `suppress_output` flag and `colors`
member, the control's position, and the colors the control will apply (the
results of `colored::find_color` for foreground and background). -/
structure control_state where
  has_term : Bool
  suppress_output : Bool
  pos : position
  colors : coloration
  foreground : Nat
  background : Nat
deriving DecidableEq, Repr

/-- Modelled from the spec: `control::can_draw` (control.cpp is not in the
snapshot).  Spec 3.3 / 4.3: drawing requires `terminal ≠ none ∧
position.width > 0 ∧ position.height > 0 ∧ suppress_output = false`. -/
def can_draw (c : control_state) : Bool :=
  c.has_term && decide (0 < c.pos.width) && decide (0 < c.pos.height)
    && !c.suppress_output

/-- From src/include/haunted/ui/Control.h, `control::resize`: sets the
control's absolute position. -/
def control_resize (p : position) (c : control_state) : control_state :=
  { c with pos := p }

/-- From src/src/ui/colored.cpp, `colored::draw`: `if (!can_draw()) return;
apply_colors();`, where `apply_colors` calls
`term->colors.set_both(find_color(foreground), find_color(background))`.
Returns the coloration (with its emitted output) after the draw. -/
def colored_draw (c : control_state) : coloration :=
  if !(can_draw c) then c.colors
  else (set_both c.foreground c.background c.colors).2

/-- Modelled from the spec: a key event (core/key.h is not in the
snapshot): a tagged codepoint plus a modifier set. -/
structure key where
  code : Nat
  mods : modset
deriving DecidableEq, Repr

/-- The ctrl+C key: spec 4.1 maps byte 0x03 to ctrl+letter c. -/
def ctrl_c_key : key :=
  { code := 99, mods := { shift := false, alt := false, ctrl := true } }

/-- From src/include/haunted/core/terminal.h: the initializer of the
`on_interrupt` member, `{[]() { return true; }}`. -/
def default_on_interrupt : Unit → Bool := fun _ => true

/-- Outcome of the terminal-level key handler. -/
inductive key_outcome where
  | shutdown
  | handled
  | unhandled
deriving DecidableEq, Repr

/-- Modelled from the spec: `Terminal::on_key` (terminal.cpp is not in the
snapshot).  Spec 4.4: "Terminal-level on_key implements common shortcuts
(e.g., ctrl+C invokes the interrupt hook; if the hook returns true, the
terminal initiates shutdown)". -/
def terminal_on_key (hook : Unit → Bool) (k : key) : key_outcome :=
  if k == ctrl_c_key then
    (if hook () then key_outcome.shutdown else key_outcome.handled)
  else key_outcome.unhandled

/-- A control tree: each control has an identifier (standing for the object
identity of the C++ control) and an ordered list of children, as owned by a
`haunted::ui::container`. -/
inductive ctrl where
  | mk (cid : Nat) (children : List ctrl)

/-- The identifier of the root control of a tree. -/
def ctrl.cid : ctrl → Nat
  | ctrl.mk i _ => i

mutual

/-- Whether the control with identifier `n` occurs in the tree. -/
def ctrl.containsId : ctrl → Nat → Bool
  | ctrl.mk i cs, n => i == n || ctrl_list_contains cs n

/-- Whether the control with identifier `n` occurs in one of the trees. -/
def ctrl_list_contains : List ctrl → Nat → Bool
  | [], _ => false
  | c :: cs, n => c.containsId n || ctrl_list_contains cs n

end

/-- The focus- and root-related state of a `Haunted::Terminal`
(src/include/haunted/core/terminal.h): the fields `UI::Control *root` and
`UI::Control *focused`, plus the identifiers of controls destroyed by
`set_root` (to observe ownership). -/
structure term_state where
  root : Option ctrl
  focused : Option Nat
  destroyed : List Nat

/-- Operations on the terminal's control tree and focus. -/
inductive term_op where
  | set_root_op (c : ctrl) (delete_old : Bool)
  | focus_op (n : Nat)
  | clear_focus_op
  | add_child_op (c : ctrl)
  | get_focused_op

/-- The identifiers reachable from the terminal's root. -/
def root_contains (s : term_state) (n : Nat) : Bool :=
  match s.root with
  | some t => t.containsId n
  | none => false

/-- Modelled from the spec: one terminal operation (terminal.cpp is not in
the snapshot).
`set_root_op` follows the header doc of `Terminal::set_root`: "If the new
root isn't the same as the old root and the `delete_old` parameter is
`true`, this function deletes the old root"; a stale focus reference into a
removed tree is cleared ("on destruction or re-parent the focus must be
cleared or reassigned").
`focus_op` follows spec 4.5: focusing "requires c.terminal == this", i.e.
the control is attached to this terminal's tree.
`clear_focus_op` models removal clearing focus ("if the removed subtree
contained focus, clear focus").
`add_child_op` follows the header doc of `Terminal::add_child`: "Adding a
child to the terminal the normal way does nothing".
`get_focused_op` follows the header doc of `Terminal::get_focused`:
"Returns the focused control.  If none is currently selected, this function
focuses the root control." -/
def term_step : term_op → term_state → term_state
  | term_op.set_root_op c delete_old, s =>
      { root := some c
        focused := match s.focused with
          | some f => if c.containsId f then some f else none
          | none => none
        destroyed := match s.root with
          | some old =>
              if delete_old && !(c.cid == old.cid) then s.destroyed ++ [old.cid]
              else s.destroyed
          | none => s.destroyed }
  | term_op.focus_op n, s =>
      if root_contains s n then { s with focused := some n } else s
  | term_op.clear_focus_op, s => { s with focused := none }
  | term_op.add_child_op _, s => s
  | term_op.get_focused_op, s =>
      match s.focused with
      | some _ => s
      | none => { s with focused := s.root.map ctrl.cid }

/-- Modelled from the spec: `Terminal::get_focused`, returning the focused
control (as its identifier) along with the updated terminal state. -/
def get_focused (s : term_state) : Option Nat × term_state :=
  match s.focused with
  | some f => (some f, s)
  | none => (s.root.map ctrl.cid, { s with focused := s.root.map ctrl.cid })

/-- Run a sequence of terminal operations. -/
def run_term (ops : List term_op) (s : term_state) : term_state :=
  ops.foldl (fun s op => term_step op s) s

/-- A freshly constructed terminal: no root, no focus. -/
def init_term : term_state :=
  { root := none, focused := none, destroyed := [] }

/-- Whether an operation is a `set_root` call. -/
def is_set_root : term_op → Bool
  | term_op.set_root_op _ _ => true
  | _ => false

/-- The focus invariant: whatever control is focused is reachable from the
root (hence in particular a root exists whenever a focus exists). -/
def focus_inv (s : term_state) : Prop :=
  ∀ f, s.focused = some f → root_contains s f = true

/-- Whether a position's rectangle contains the cell (x, y).  Positions are
absolute zero-based screen rectangles (spec 3). -/
def in_rect (p : position) (x y : Int) : Bool :=
  decide (p.left ≤ x) && decide (x < p.left + p.width)
    && decide (p.top ≤ y) && decide (y < p.top + p.height)

mutual

/-- Modelled from the spec: `container::child_at_offset` /
`Terminal::child_at_offset` (terminal.cpp and the container sources are not
in the snapshot).  Spec 4.3: "return the deepest non-container control whose
rectangle contains (x, y); ties resolved by later insertion order (later
children are on top)"; terminal.h: "Recursively searches the all children
within the terminal until a non-container control that contains the given
coordinate is found."  `posOf` assigns each control its absolute position
(spec: the parent assigns child positions).  A node with children is a
container and is searched through; a leaf is a non-container control. -/
def child_at_offset (posOf : Nat → position) : ctrl → Int → Int → Option Nat
  | ctrl.mk i [], x, y => if in_rect (posOf i) x y then some i else none
  | ctrl.mk _ (c :: cs), x, y => child_list_at_offset posOf (c :: cs) x y

/-- Hit test over a child list, later children first (they are on top). -/
def child_list_at_offset (posOf : Nat → position) : List ctrl → Int → Int → Option Nat
  | [], _, _ => none
  | c :: cs, x, y =>
      match child_list_at_offset posOf cs x y with
      | some n => some n
      | none => child_at_offset posOf c x y

end

/-- Modelled from the spec: the control that `Terminal::send_mouse` delivers
a mouse event to (terminal.cpp is not in the snapshot).  Spec 4.4: "Mouse:
hit-test child_at_offset(x, y) starting at the root"; with no root there is
no target. -/
def send_mouse_target (posOf : Nat → position) (s : term_state) (x y : Int) :
    Option Nat :=
  match s.root with
  | some t => child_at_offset posOf t x y
  | none => none

/-- A sample drawable control (terminal attached, 80x24, output enabled)
used in concrete checks. -/
def demo_control : control_state :=
  { has_term := true, suppress_output := false,
    pos := { left := 0, top := 0, width := 80, height := 24 },
    colors := { last_foreground := 0, last_background := 0, output := [] },
    foreground := 2, background := 3 }

/-- A zero-width position used in concrete checks. -/
def demo_zero_pos : position :=
  { left := 0, top := 0, width := 0, height := 24 }

/-- A sample coloration state (last colors 1 and 2, nothing written yet)
used in concrete checks. -/
def demo_colors : coloration :=
  { last_foreground := 1, last_background := 2, output := [] }

end Haunted

namespace Haunted

/-- C2 (counterexample): the claim asserts that the low two bits of the wire
parameter being 1 yields button = middle; but `mouse_button`, as declared in
src/include/haunted/core/mouse.h, has no value distinct from left and right,
so no middle button value exists. -/
theorem spec_c2_counterexample :
    ¬ ∃ (m : mouse_button), m ≠ mouse_button.left ∧ m ≠ mouse_button.right := by
  rintro ⟨m, h1, h2⟩
  cases m
  · exact h1 rfl
  · exact h2 rfl

/-- C2 (amended): for an SGR wire report `CSI < b ; x ; y` with final byte M
or m, the decoded report has coordinates (x-1, y-1); its button is left when
the low two bits of b are 0 and right when they are 2; its modset is bits
2, 3, 4 of b (shift, alt, ctrl); when bit 6 (scroll) is clear and bit 5
(motion) is set the action is a motion action (move or drag); and when bit 6
is set the low bits select scroll_up (0) or scroll_down (1). -/
theorem spec_c2 (b : Nat) (fchar : Char) (wx wy : Int) (dragging : Bool)
    (r : mouse_report) (hr : r = parse_report b fchar wx wy dragging)
    (hf : fchar = 'M' ∨ fchar = 'm') :
    r.x = wx - 1 ∧ r.y = wy - 1
    ∧ (b % 4 = 0 → r.button = mouse_button.left)
    ∧ (b % 4 = 2 → r.button = mouse_button.right)
    ∧ r.mods = { shift := b.testBit 2, alt := b.testBit 3, ctrl := b.testBit 4 }
    ∧ (b.testBit 6 = true → b % 4 = 0 → r.action = mouse_action.scrollup)
    ∧ (b.testBit 6 = true → b % 4 = 1 → r.action = mouse_action.scrolldown)
    ∧ (b.testBit 6 = false → b.testBit 5 = true →
        (r.action = mouse_action.move ∨ r.action = mouse_action.drag)) := by
  subst hr
  refine ⟨rfl, rfl, ?_, ?_, rfl, ?_, ?_, ?_⟩
  · intro h0
    simp [parse_report, decode_button, h0]
  · intro h2
    simp [parse_report, decode_button, h2]
  · intro h6 h0
    simp [parse_report, decode_action, h6, h0]
  · intro h6 h1
    simp [parse_report, decode_action, h6, h1]
  · intro h6 h5
    cases dragging <;> simp [parse_report, decode_action, h6, h5]

/-- C2 witness: the amended statement instantiated at the wire report
`CSI < 6 ; 10 ; 5 M` (b = 6: right button with shift). -/
theorem spec_c2_witness :
    (parse_report 6 'M' 10 5 false).x = 10 - 1
    ∧ (parse_report 6 'M' 10 5 false).y = 5 - 1
    ∧ ((6 : Nat) % 4 = 0 → (parse_report 6 'M' 10 5 false).button = mouse_button.left)
    ∧ ((6 : Nat) % 4 = 2 → (parse_report 6 'M' 10 5 false).button = mouse_button.right)
    ∧ (parse_report 6 'M' 10 5 false).mods =
        { shift := (6 : Nat).testBit 2, alt := (6 : Nat).testBit 3, ctrl := (6 : Nat).testBit 4 }
    ∧ ((6 : Nat).testBit 6 = true → (6 : Nat) % 4 = 0 →
        (parse_report 6 'M' 10 5 false).action = mouse_action.scrollup)
    ∧ ((6 : Nat).testBit 6 = true → (6 : Nat) % 4 = 1 →
        (parse_report 6 'M' 10 5 false).action = mouse_action.scrolldown)
    ∧ ((6 : Nat).testBit 6 = false → (6 : Nat).testBit 5 = true →
        ((parse_report 6 'M' 10 5 false).action = mouse_action.move
          ∨ (parse_report 6 'M' 10 5 false).action = mouse_action.drag)) :=
  spec_c2 6 'M' 10 5 false (parse_report 6 'M' 10 5 false) rfl (Or.inl rfl)

/-- C3 (counterexample): the claim asserts the button field ranges over
three values, but `mouse_button` (src/include/haunted/core/mouse.h) has no
three pairwise distinct values. -/
theorem spec_c3_counterexample :
    ¬ ∃ (a b c : mouse_button), a ≠ b ∧ a ≠ c ∧ b ≠ c := by
  rintro ⟨a, b, c, hab, hac, hbc⟩
  cases a <;> cases b <;> cases c <;> simp_all

/-- C3 (amended): the button field of every decoded mouse report ranges over
exactly the two values left and right; in particular a wire report whose
first parameter has low two bits equal to 1 decodes to a report whose button
is left or right (middle is not representable). -/
theorem spec_c3 (x : mouse_button) (b : Nat) (fchar : Char) (wx wy : Int)
    (dragging : Bool) (h1 : b % 4 = 1) :
    (x = mouse_button.left ∨ x = mouse_button.right)
    ∧ ((parse_report b fchar wx wy dragging).button = mouse_button.left
        ∨ (parse_report b fchar wx wy dragging).button = mouse_button.right) := by
  constructor
  · cases x
    · exact Or.inl rfl
    · exact Or.inr rfl
  · cases h : decode_button b
    · exact Or.inl (by simp [parse_report, h])
    · exact Or.inr (by simp [parse_report, h])

/-- C3 witness: instantiated at the wire report `CSI < 1 ; 3 ; 4 M`
(first parameter with low two bits equal to 1). -/
theorem spec_c3_witness :
    (mouse_button.left = mouse_button.left ∨ mouse_button.left = mouse_button.right)
    ∧ ((parse_report 1 'M' 3 4 false).button = mouse_button.left
        ∨ (parse_report 1 'M' 3 4 false).button = mouse_button.right) :=
  spec_c3 mouse_button.left 1 'M' 3 4 false rfl

/-- C4: with the scroll bit clear, a report with the motion bit set resolves
to drag when the terminal's dragging state is true and to move otherwise; a
report with final byte M and neither motion nor scroll bit resolves to down
and sets the dragging state; a report with final byte m and neither motion
nor scroll bit resolves to up and clears the dragging state. -/
theorem spec_c4 (b : Nat) (fchar : Char) (wx wy : Int) (dragging : Bool)
    (r : mouse_report) (hr : r = parse_report b fchar wx wy dragging)
    (hscroll : b.testBit 6 = false) :
    (b.testBit 5 = true →
      r.action = (if dragging then mouse_action.drag else mouse_action.move))
    ∧ (b.testBit 5 = false → fchar = 'M' →
        r.action = mouse_action.down ∧ next_dragging r dragging = true)
    ∧ (b.testBit 5 = false → fchar = 'm' →
        r.action = mouse_action.up ∧ next_dragging r dragging = false) := by
  subst hr
  refine ⟨?_, ?_, ?_⟩
  · intro h5
    cases dragging <;> simp [parse_report, decode_action, hscroll, h5]
  · intro h5 hM
    subst hM
    constructor
    · simp [parse_report, decode_action, hscroll, h5]
    · simp [next_dragging, parse_report, decode_action, hscroll, h5]
  · intro h5 hm
    subst hm
    constructor
    · simp [parse_report, decode_action, hscroll, h5]
    · simp [next_dragging, parse_report, decode_action, hscroll, h5]

theorem dev_inv_step {A : Type} (f : A → A) (a : A) (op : term_mode_op)
    (s : dev_state A) (h : dev_inv a s) : dev_inv a (mode_step f op s) := by
  cases op with
  | cbreak_op =>
      rcases h with ⟨h1, h2⟩ | h1
      · right
        simp [mode_step, h1, h2]
      · right
        simp [mode_step, h1]
  | mouse_op m =>
      rcases h with ⟨h1, h2⟩ | h1
      · exact Or.inl ⟨h1, h2⟩
      · exact Or.inr h1
  | reset_op =>
      rcases h with ⟨h1, h2⟩ | h1
      · exact Or.inl ⟨h1, by simp [mode_step, h1, h2]⟩
      · exact Or.inr h1

theorem dev_inv_run {A : Type} (f : A → A) (a : A) (ops : List term_mode_op)
    (s : dev_state A) (h : dev_inv a s) : dev_inv a (run_modes f ops s) := by
  induction ops generalizing s with
  | nil => exact h
  | cons op ops ih =>
      have hstep := dev_inv_step f a op s h
      simpa [run_modes, List.foldl] using ih (mode_step f op s) hstep

/-- C1: for every sequence of mode operations (cbreak, mouse-mode changes,
explicit resets) applied to a freshly constructed terminal on a device with
attributes `a`, destruction restores the device attributes to exactly `a`;
moreover whatever was saved as the original attributes equals `a`, the
attributes current at the first mode change. -/
theorem spec_c1 (A : Type) (f : A → A) (a : A) (ops : List term_mode_op) :
    destroy_attrs (run_modes f ops (init_dev a)) = a
    ∧ (∀ x, (run_modes f ops (init_dev a)).original = some x → x = a) := by
  have hinv : dev_inv a (run_modes f ops (init_dev a)) :=
    dev_inv_run f a ops (init_dev a) (Or.inl ⟨rfl, rfl⟩)
  rcases hinv with ⟨h1, h2⟩ | h1
  · refine ⟨?_, ?_⟩
    · simp [destroy_attrs, h1, h2]
    · intro x hx
      rw [h1] at hx
      exact absurd hx (by simp)
  · refine ⟨?_, ?_⟩
    · simp [destroy_attrs, h1]
    · intro x hx
      rw [h1] at hx
      exact (Option.some_inj.mp hx).symm

/-- C1 witness: instantiated at a concrete run over Nat attributes:
cbreak, then a mouse-mode change, then destruction restores attribute 7. -/
theorem spec_c1_witness :
    destroy_attrs (run_modes (fun n => n + 1)
        [term_mode_op.cbreak_op, term_mode_op.mouse_op mouse_mode.normal] (init_dev 7)) = 7
    ∧ (∀ x, (run_modes (fun n => n + 1)
        [term_mode_op.cbreak_op, term_mode_op.mouse_op mouse_mode.normal]
        (init_dev 7)).original = some x → x = 7) :=
  spec_c1 Nat (fun n => n + 1) 7
    [term_mode_op.cbreak_op, term_mode_op.mouse_op mouse_mode.normal]

/-- C4 witness: instantiated at the press report `CSI < 0 ; 10 ; 5 M` with
dragging initially false (spec scenario 3: down is produced and the dragging
state is set). -/
theorem spec_c4_witness :
    ((0 : Nat).testBit 5 = true →
      (parse_report 0 'M' 10 5 false).action =
        (if false then mouse_action.drag else mouse_action.move))
    ∧ ((0 : Nat).testBit 5 = false → 'M' = 'M' →
        (parse_report 0 'M' 10 5 false).action = mouse_action.down
          ∧ next_dragging (parse_report 0 'M' 10 5 false) false = true)
    ∧ ((0 : Nat).testBit 5 = false → 'M' = 'm' →
        (parse_report 0 'M' 10 5 false).action = mouse_action.up
          ∧ next_dragging (parse_report 0 'M' 10 5 false) false = false) :=
  spec_c4 0 'M' 10 5 false (parse_report 0 'M' 10 5 false) rfl (by decide)

theorem ctrl_contains_self (t : ctrl) : t.containsId t.cid = true := by
  cases t with
  | mk i cs => simp [ctrl.containsId, ctrl.cid]

theorem focus_inv_step (op : term_op) (s : term_state) (h : focus_inv s) :
    focus_inv (term_step op s) := by
  cases op with
  | set_root_op c d =>
      intro f hf
      cases hfoc : s.focused with
      | none => simp [term_step, hfoc] at hf
      | some f0 =>
          by_cases hc : c.containsId f0 = true
          · simp [term_step, hfoc, hc] at hf
            subst hf
            simpa [root_contains, term_step, hfoc, hc] using hc
          · simp [term_step, hfoc, hc] at hf
  | focus_op n =>
      intro f hf
      by_cases hc : root_contains s n = true
      · simp [term_step, hc] at hf ⊢
        subst hf
        simpa [root_contains] using hc
      · simp [term_step, hc] at hf ⊢
        exact (by simpa [root_contains] using h f hf)
  | clear_focus_op =>
      intro f hf
      simp [term_step] at hf
  | add_child_op c =>
      intro f hf
      exact h f hf
  | get_focused_op =>
      intro f hf
      cases hfoc : s.focused with
      | some f0 =>
          simp [term_step, hfoc] at hf ⊢
          subst hf
          simpa [root_contains] using h f0 hfoc
      | none =>
          cases hroot : s.root with
          | none => simp [term_step, hfoc, hroot] at hf
          | some t =>
              simp [term_step, hfoc, hroot] at hf ⊢
              subst hf
              simpa [root_contains, hroot] using ctrl_contains_self t

theorem focus_inv_run (ops : List term_op) (s : term_state) (h : focus_inv s) :
    focus_inv (run_term ops s) := by
  induction ops generalizing s with
  | nil => exact h
  | cons op ops ih =>
      have hstep := focus_inv_step op s h
      simpa [run_term, List.foldl] using ih (term_step op s) hstep

/-- C5: in every state reachable from a fresh terminal through set_root,
focus, focus clearing, add_child and get_focused calls, `get_focused`
returns a control iff a root is set; moreover when no control is focused and
a root exists, `get_focused` focuses the root and returns it, and when no
root exists it returns none. -/
theorem spec_c5 (ops : List term_op) (s : term_state)
    (hs : s = run_term ops init_term) :
    ((get_focused s).1 ≠ none ↔ s.root ≠ none)
    ∧ (∀ t, s.focused = none → s.root = some t →
        get_focused s = (some t.cid, { s with focused := some t.cid }))
    ∧ (s.root = none → (get_focused s).1 = none) := by
  have hinv : focus_inv s := by
    rw [hs]
    exact focus_inv_run ops init_term (by intro f hf; simp [init_term] at hf)
  refine ⟨?_, ?_, ?_⟩
  · cases hfoc : s.focused with
    | some f =>
        have hroot : root_contains s f = true := hinv f hfoc
        simp [get_focused, hfoc]
        unfold root_contains at hroot
        cases hr : s.root with
        | none => rw [hr] at hroot; simp at hroot
        | some t => simp [hr]
    | none =>
        cases hr : s.root with
        | none => simp [get_focused, hfoc, hr]
        | some t => simp [get_focused, hfoc, hr]
  · intro t hfoc hroot
    simp [get_focused, hfoc, hroot]
  · intro hroot
    cases hfoc : s.focused with
    | some f =>
        have hc := hinv f hfoc
        rw [root_contains, hroot] at hc
        simp at hc
    | none => simp [get_focused, hfoc, hroot]

/-- C5 witness: instantiated at the run that installs a root and never
focuses anything: get_focused then focuses and returns the root. -/
theorem spec_c5_witness :
    ((get_focused (run_term [term_op.set_root_op (ctrl.mk 1 []) true] init_term)).1 ≠ none
      ↔ (run_term [term_op.set_root_op (ctrl.mk 1 []) true] init_term).root ≠ none)
    ∧ (∀ t, (run_term [term_op.set_root_op (ctrl.mk 1 []) true] init_term).focused = none →
        (run_term [term_op.set_root_op (ctrl.mk 1 []) true] init_term).root = some t →
        get_focused (run_term [term_op.set_root_op (ctrl.mk 1 []) true] init_term) =
          (some t.cid,
            { run_term [term_op.set_root_op (ctrl.mk 1 []) true] init_term with
                focused := some t.cid }))
    ∧ ((run_term [term_op.set_root_op (ctrl.mk 1 []) true] init_term).root = none →
        (get_focused (run_term [term_op.set_root_op (ctrl.mk 1 []) true] init_term)).1 = none) :=
  spec_c5 [term_op.set_root_op (ctrl.mk 1 []) true]
    (run_term [term_op.set_root_op (ctrl.mk 1 []) true] init_term) rfl

/-- C6: can_draw holds iff the control has a terminal, positive width,
positive height and output is not suppressed; after a resize to zero width
or zero height, can_draw is false and a colored control's draw leaves the
coloration (and hence the emitted output) unchanged. -/
theorem spec_c6 (c : control_state) (p : position)
    (h : p.width = 0 ∨ p.height = 0) :
    (can_draw c = true ↔
      (c.has_term = true ∧ 0 < c.pos.width ∧ 0 < c.pos.height
        ∧ c.suppress_output = false))
    ∧ can_draw (control_resize p c) = false
    ∧ colored_draw (control_resize p c) = c.colors := by
  have hfalse : can_draw (control_resize p c) = false := by
    rcases h with h0 | h0 <;> simp [can_draw, control_resize, h0]
  refine ⟨?_, hfalse, ?_⟩
  · simp [can_draw, and_assoc]
  · have hd : colored_draw (control_resize p c) = (control_resize p c).colors := by
      simp [colored_draw, hfalse]
    rw [hd]
    simp [control_resize]

/-- C6 witness: a control with a terminal and an 80x24 position, resized to
width 0. -/
theorem spec_c6_witness :
    (can_draw demo_control = true ↔
      (demo_control.has_term = true ∧ 0 < demo_control.pos.width
        ∧ 0 < demo_control.pos.height ∧ demo_control.suppress_output = false))
    ∧ can_draw (control_resize demo_zero_pos demo_control) = false
    ∧ colored_draw (control_resize demo_zero_pos demo_control) = demo_control.colors :=
  spec_c6 demo_control demo_zero_pos (Or.inl rfl)

/-- C7: set_root destroys the previously installed root only when
delete_old is true and the new control is not the same control as the old
root; when delete_old is false, or the new control equals the current root,
the old root is left intact. -/
theorem spec_c7 (s : term_state) (c old : ctrl) (d : Bool)
    (h : s.root = some old) :
    ((d = false ∨ c.cid = old.cid) →
      (term_step (term_op.set_root_op c d) s).destroyed = s.destroyed)
    ∧ ((d = true ∧ c.cid ≠ old.cid) →
      (term_step (term_op.set_root_op c d) s).destroyed = s.destroyed ++ [old.cid]) := by
  constructor
  · rintro (hd | hsame)
    · simp [term_step, h, hd]
    · simp [term_step, h, hsame]
  · rintro ⟨hd, hne⟩
    simp [term_step, h, hd, hne]

/-- C7 witness: replacing root 1 by a different control 2 with delete_old
true destroys control 1; and (vacuously checked side) the intact cases. -/
theorem spec_c7_witness :
    ((true = false ∨ (ctrl.mk 2 []).cid = (ctrl.mk 1 []).cid) →
      (term_step (term_op.set_root_op (ctrl.mk 2 []) true)
        { root := some (ctrl.mk 1 []), focused := none, destroyed := [] }).destroyed =
        ({ root := some (ctrl.mk 1 []), focused := none,
           destroyed := [] } : term_state).destroyed)
    ∧ ((true = true ∧ (ctrl.mk 2 []).cid ≠ (ctrl.mk 1 []).cid) →
      (term_step (term_op.set_root_op (ctrl.mk 2 []) true)
        { root := some (ctrl.mk 1 []), focused := none, destroyed := [] }).destroyed =
        ({ root := some (ctrl.mk 1 []), focused := none,
           destroyed := [] } : term_state).destroyed ++ [(ctrl.mk 1 []).cid]) :=
  spec_c7 { root := some (ctrl.mk 1 []), focused := none, destroyed := [] }
    (ctrl.mk 2 []) (ctrl.mk 1 []) true rfl

mutual

theorem child_at_offset_mem (posOf : Nat → position) (t : ctrl) (x y : Int)
    (n : Nat) (h : child_at_offset posOf t x y = some n) :
    t.containsId n = true := by
  cases t with
  | mk i cs =>
      cases cs with
      | nil =>
          by_cases hin : in_rect (posOf i) x y = true
          · simp only [child_at_offset, hin, if_true, Option.some_inj] at h
            subst h
            simp [ctrl.containsId]
          · simp [child_at_offset, hin] at h
      | cons c cs =>
          have hl : ctrl_list_contains (c :: cs) n = true :=
            child_list_at_offset_mem posOf (c :: cs) x y n
              (by simpa [child_at_offset] using h)
          simp only [ctrl.containsId, Bool.or_eq_true]
          exact Or.inr hl

theorem child_list_at_offset_mem (posOf : Nat → position) (cs : List ctrl)
    (x y : Int) (n : Nat) (h : child_list_at_offset posOf cs x y = some n) :
    ctrl_list_contains cs n = true := by
  cases cs with
  | nil => simp [child_list_at_offset] at h
  | cons c cs =>
      simp only [ctrl_list_contains, Bool.or_eq_true]
      cases hrest : child_list_at_offset posOf cs x y with
      | some m =>
          have hm : m = n := by
            simp only [child_list_at_offset, hrest, Option.some_inj] at h
            exact h
          subst hm
          exact Or.inr (child_list_at_offset_mem posOf cs x y m hrest)
      | none =>
          have hc : child_at_offset posOf c x y = some n := by
            simpa [child_list_at_offset, hrest] using h
          exact Or.inl (child_at_offset_mem posOf c x y n hc)

end

/-- C8: add_child on the terminal leaves the terminal state (root and all)
unchanged; no operation other than set_root changes the root; and a control
not reachable from the root is never the control that get_focused (the key
dispatch target) returns, nor the control that the mouse hit test starting
at the root (the mouse dispatch target) returns. -/
theorem spec_c8 (s : term_state) (c : ctrl) (op : term_op)
    (ops : List term_op) (n : Nat) (posOf : Nat → position) (x y : Int)
    (hop : is_set_root op = false)
    (horphan : root_contains (run_term ops init_term) n = false) :
    term_step (term_op.add_child_op c) s = s
    ∧ (term_step op s).root = s.root
    ∧ (get_focused (run_term ops init_term)).1 ≠ some n
    ∧ send_mouse_target posOf (run_term ops init_term) x y ≠ some n := by
  refine ⟨rfl, ?_, ?_, ?_⟩
  · cases op with
    | set_root_op c d => simp [is_set_root] at hop
    | focus_op m => by_cases hc : root_contains s m = true <;> simp [term_step, hc]
    | clear_focus_op => rfl
    | add_child_op c => rfl
    | get_focused_op => cases hf : s.focused <;> simp [term_step, hf]
  · have hinv : focus_inv (run_term ops init_term) :=
      focus_inv_run ops init_term (by intro f hf; simp [init_term] at hf)
    intro hcontra
    cases hfoc : (run_term ops init_term).focused with
    | some f =>
        have : (some f : Option Nat) = some n := by
          simpa [get_focused, hfoc] using hcontra
        have hf : (run_term ops init_term).focused = some n := by
          rw [hfoc]; exact this
        have := hinv n hf
        rw [horphan] at this
        exact Bool.false_ne_true this
    | none =>
        cases hr : (run_term ops init_term).root with
        | none => simp [get_focused, hfoc, hr] at hcontra
        | some t =>
            have hcid : t.cid = n := by
              simpa [get_focused, hfoc, hr] using hcontra
            have : root_contains (run_term ops init_term) n = true := by
              rw [root_contains, hr, ← hcid]
              exact ctrl_contains_self t
            rw [horphan] at this
            exact Bool.false_ne_true this
  · intro hcontra
    cases hr : (run_term ops init_term).root with
    | none => simp [send_mouse_target, hr] at hcontra
    | some t =>
        have hc : child_at_offset posOf t x y = some n := by
          simpa [send_mouse_target, hr] using hcontra
        have hmem := child_at_offset_mem posOf t x y n hc
        have : root_contains (run_term ops init_term) n = true := by
          rw [root_contains, hr]
          exact hmem
        rw [horphan] at this
        exact Bool.false_ne_true this

/-- C8 witness: with root control 1 installed, the orphan control 5 (added
via add_child, which does nothing) is never returned by get_focused and is
never the mouse hit-test target, here checked at coordinate (3, 4). -/
theorem spec_c8_witness :
    term_step (term_op.add_child_op (ctrl.mk 5 [])) init_term = init_term
    ∧ (term_step term_op.clear_focus_op init_term).root = init_term.root
    ∧ (get_focused (run_term
        [term_op.set_root_op (ctrl.mk 1 []) true,
         term_op.add_child_op (ctrl.mk 5 [])] init_term)).1 ≠ some 5
    ∧ send_mouse_target (fun _ => demo_zero_pos)
        (run_term
          [term_op.set_root_op (ctrl.mk 1 []) true,
           term_op.add_child_op (ctrl.mk 5 [])] init_term) 3 4 ≠ some 5 :=
  spec_c8 init_term (ctrl.mk 5 []) term_op.clear_focus_op
    [term_op.set_root_op (ctrl.mk 1 []) true, term_op.add_child_op (ctrl.mk 5 [])] 5
    (fun _ => demo_zero_pos) 3 4
    rfl
    (by simp [run_term, term_step, init_term, root_contains,
          ctrl.containsId, ctrl_list_contains])

/-- C9: the on_interrupt hook is initialized to a function returning true,
so a terminal whose caller never assigns on_interrupt initiates shutdown
when a ctrl+C key event reaches the terminal's on_key handler. -/
theorem spec_c9 :
    default_on_interrupt () = true
    ∧ terminal_on_key default_on_interrupt ctrl_c_key = key_outcome.shutdown := by
  constructor
  · rfl
  · simp [terminal_on_key, default_on_interrupt]

/-- C10: setting a color equal to the last one set returns false and writes
nothing (foreground and background alike); a second consecutive call with
the same color writes nothing beyond the first, and a changing call writes
exactly one escape sequence; set_both returns true iff at least one of the
two colors actually changed. -/
theorem spec_c10 (c f b : Nat) (s : coloration) :
    (c = s.last_foreground → set_foreground c s = (false, s))
    ∧ (c = s.last_background → set_background c s = (false, s))
    ∧ (set_foreground c (set_foreground c s).2).2.output = (set_foreground c s).2.output
    ∧ (c ≠ s.last_foreground →
        (set_foreground c s).2.output = s.output ++ [color_cmd.fg c])
    ∧ ((set_both f b s).1 = true ↔
        (f ≠ s.last_foreground ∨ b ≠ s.last_background)) := by
  refine ⟨?_, ?_, ?_, ?_, ?_⟩
  · intro h
    simp [set_foreground, h]
  · intro h
    simp [set_background, h]
  · by_cases h : c = s.last_foreground <;> simp [set_foreground, h]
  · intro h
    simp [set_foreground, h]
  · by_cases hf : f = s.last_foreground <;> by_cases hb : b = s.last_background <;>
      simp [set_both, set_foreground, set_background, hf, hb]

/-- C10 witness: with last colors (1, 2), re-setting foreground 1 writes
nothing; set_both with foreground 5 and unchanged background 2 returns
true. -/
theorem spec_c10_witness :
    ((1 : Nat) = demo_colors.last_foreground →
      set_foreground 1 demo_colors = (false, demo_colors))
    ∧ ((1 : Nat) = demo_colors.last_background →
      set_background 1 demo_colors = (false, demo_colors))
    ∧ (set_foreground 1 (set_foreground 1 demo_colors).2).2.output =
      (set_foreground 1 demo_colors).2.output
    ∧ ((1 : Nat) ≠ demo_colors.last_foreground →
      (set_foreground 1 demo_colors).2.output = demo_colors.output ++ [color_cmd.fg 1])
    ∧ ((set_both 5 2 demo_colors).1 = true ↔
        ((5 : Nat) ≠ demo_colors.last_foreground
          ∨ (2 : Nat) ≠ demo_colors.last_background)) :=
  spec_c10 1 5 2 demo_colors

end Haunted
